import Mathlib

/-!
Verification development for the eForms notice-extraction engine
(`src/extract_data_from_eforms.py` of the procurement-analysis repository).

The XML document handed to `extract_single_notice` is modelled as a tree of
element and text nodes whose element tags carry the namespace prefix bound by
the fixed prefix table of the source (`cbc`, `cac`, `efac`, `efbc`).  The
XPath queries issued by the source are modelled semantically: each concrete
query is translated to a composition of the traversal primitives below
(descendant search in document order, child steps, attribute-equality
filters, XPath `string()` value).  Quoting issues of the source's textual
interpolation of identifiers into query strings are not modelled.

Parsing of raw bytes is performed by an external XML library; it is modelled
as an abstract `Option XNode` (a parse attempt that either produced a tree or
failed), so `extract_single_notice` takes the outcome of the parse.
-/

namespace EForms

/-- One node of a parsed XML document: an element with a prefixed tag, an
attribute list and a child list, or a text node. -/
inductive XNode where
  | elem (tag : String) (attrs : List (String × String)) (children : List XNode)
  | text (s : String)

mutual

/-- XPath `string()` value of a node: the concatenation of all text
descendants, in document order. -/
def strVal : XNode → String
  | .text s => s
  | .elem _ _ cs => strValL cs

/-- String value of a forest, in order. -/
def strValL : List XNode → String
  | [] => ""
  | c :: cs => strVal c ++ strValL cs

end

mutual

/-- All element nodes of the subtree rooted at a node (the node itself
included), in document (pre-)order: the node set selected by `//tag` before
the tag filter. -/
def descAll : XNode → List XNode
  | .text _ => []
  | .elem t a cs => XNode.elem t a cs :: descAllL cs

/-- Element nodes of a forest in document order. -/
def descAllL : List XNode → List XNode
  | [] => []
  | c :: cs => descAll c ++ descAllL cs

end

/-- Tag of an element node; text nodes get the empty tag, which no namespaced
element tag equals. -/
def tagOf : XNode → String
  | .elem t _ _ => t
  | .text _ => ""

/-- Attribute lookup on an element node. -/
def attrOf : XNode → String → Option String
  | .elem _ as _, a => (as.find? (fun p => p.1 == a)).map (fun p => p.2)
  | .text _, _ => none

/-- Does the node carry attribute `a` with exact value `v` (the XPath
predicate `[@a='v']`, exact string equality)? -/
def hasAttrEq (n : XNode) (a v : String) : Bool :=
  attrOf n a == some v

/-- Children of a node (empty for text nodes). -/
def childrenOf : XNode → List XNode
  | .elem _ _ cs => cs
  | .text _ => []

/-- Child elements with a given tag: one XPath child step `tag`. -/
def childTag (t : String) (n : XNode) : List XNode :=
  (childrenOf n).filter (fun c => tagOf c == t)

/-- Child step applied to a node list, preserving document order. -/
def step (t : String) (ns : List XNode) : List XNode :=
  ns.flatMap (childTag t)

/-- Child step followed by an attribute-equality predicate:
`tag[@a='v']`. -/
def stepAttr (t a v : String) (ns : List XNode) : List XNode :=
  (step t ns).filter (fun n => hasAttrEq n a v)

/-- The node set `//t` rooted at `root`, in document order. -/
def selTag (root : XNode) (t : String) : List XNode :=
  (descAll root).filter (fun n => tagOf n == t)

/-- The node set `//t[@a='v']`. -/
def selTagAttr (root : XNode) (t a v : String) : List XNode :=
  (selTag root t).filter (fun n => hasAttrEq n a v)

mutual

/-- Nodes satisfying `q` that lie strictly below a node satisfying `p`
(document order, each node once): the node set `//P//Q`.  The flag records
whether an ancestor satisfying `p` has been passed. -/
def underColl (p q : XNode → Bool) : Bool → XNode → List XNode
  | _, .text _ => []
  | inP, .elem t a cs =>
      (if inP && q (.elem t a cs) then [XNode.elem t a cs] else []) ++
        underCollL p q (inP || p (.elem t a cs)) cs

/-- Forest version of `underColl`. -/
def underCollL (p q : XNode → Bool) : Bool → List XNode → List XNode
  | _, [] => []
  | inP, c :: cs => underColl p q inP c ++ underCollL p q inP cs

end

mutual

/-- The node set `//t[1]`: every element with tag `t` that is the first
`t`-tagged child of its parent (the root element qualifies when its tag is
`t`), in document order.  The flag says whether the node itself qualifies. -/
def posDesc (t : String) : Bool → XNode → List XNode
  | _, .text _ => []
  | qual, .elem tg a cs =>
      (if qual then [XNode.elem tg a cs] else []) ++ posDescL t false cs

/-- Forest version of `posDesc`; the flag records whether a `t`-tagged
sibling has already been seen among the preceding children. -/
def posDescL (t : String) : Bool → List XNode → List XNode
  | _, [] => []
  | seen, c :: cs =>
      posDesc t (tagOf c == t && !seen) c ++
        posDescL t (seen || tagOf c == t) cs

end

/-- String value of the first node of a node set, `""` when empty: the XPath
function `string(nodeset)`. -/
def firstStr : List XNode → String
  | [] => ""
  | n :: _ => strVal n

/-- The source's `txt` helper: `string()` of the first match, with the empty
string collapsed to an absent value (`result if result else None`). -/
def txtOf (ns : List XNode) : Option String :=
  if firstStr ns = "" then none else some (firstStr ns)

/-- Attribute values of the matching nodes, in document order: the node set
`path/@a` rendered as strings. -/
def attrVals (ns : List XNode) (a : String) : List String :=
  ns.filterMap (fun n => attrOf n a)

/-- The source's `attr` helper: `result[0] if result else None` over the
attribute-value list.  An attribute that is present with an empty value is
returned as the empty string. -/
def attrFirst (ns : List XNode) (a : String) : Option String :=
  match attrVals ns a with
  | [] => none
  | v :: _ => some v

/-! ### Numeric parsing

`float(text)` of CPython on a string argument, modelled on the fragment the
source can meet: optional surrounding whitespace, an optional sign, a decimal
mantissa (`123`, `1.5`, `.5`, `1.`) and an optional decimal exponent, giving
an exact rational.  Special values (`inf`, `nan`), underscore digit
separators and overflow to infinity are outside the modelled fragment.
Failure of `float` (a `ValueError`) is `none`. -/

/-- Numeric value of a digit list read most-significant first. -/
def natOfDigits (cs : List Char) : Nat :=
  cs.foldl (fun acc c => acc * 10 + (c.toNat - '0'.toNat)) 0

/-- Integer power of ten as a rational. -/
def pow10 (k : Int) : ℚ :=
  if 0 ≤ k then ((10 : ℚ) ^ k.toNat) else 1 / ((10 : ℚ) ^ (-k).toNat)

/-- Exponent part after `e`/`E`: optional sign then at least one digit. -/
def parseExp (cs : List Char) : Option Int :=
  let (sgn, ds) : Int × List Char :=
    match cs with
    | '+' :: r => (1, r)
    | '-' :: r => (-1, r)
    | r => (1, r)
  if ds.isEmpty || ¬ ds.all Char.isDigit then none
  else some (sgn * (natOfDigits ds : Int))

/-- Unsigned decimal literal with optional fraction and exponent. -/
def parseUnsigned (cs : List Char) : Option ℚ :=
  let ip := cs.takeWhile Char.isDigit
  let rest := cs.dropWhile Char.isDigit
  let (fp, rest2) : List Char × List Char :=
    match rest with
    | '.' :: r => (r.takeWhile Char.isDigit, r.dropWhile Char.isDigit)
    | r => ([], r)
  if ip.isEmpty && fp.isEmpty then none
  else
    let mant : ℚ := (natOfDigits ip : ℚ) + (natOfDigits fp : ℚ) * pow10 (-(fp.length : Int))
    match rest2 with
    | [] => some mant
    | e :: r =>
        if e == 'e' || e == 'E' then (parseExp r).map (fun k => mant * pow10 k)
        else none

/-- CPython `float()` on a string, restricted to the finite decimal fragment
described above; `none` models a raised `ValueError`. -/
def pyFloat (s : String) : Option ℚ :=
  let cs := ((s.toList.dropWhile Char.isWhitespace).reverse.dropWhile
    Char.isWhitespace).reverse
  match cs with
  | '+' :: r => parseUnsigned r
  | '-' :: r => (parseUnsigned r).map (fun q => -q)
  | r => parseUnsigned r

/-- The source's `num` helper: `txt` then `float(text) if text else None`
inside a `try` that converts a `ValueError` to an absent value. -/
def numOf (ns : List XNode) : Option ℚ :=
  (txtOf ns).bind pyFloat

/-! ### Output record types

The nested dictionary built by `extract_single_notice`, rendered as fixed
record types.  A dictionary key that the source may leave as `None` is an
`Option`; the `contracting_party` sub-dictionary is `Option` because the
source leaves it as the empty dictionary when no identifier is found, while
`project` and `financial` are always fully keyed. -/

/-- Address block used by `project` and each lot (`location`). -/
structure Location where
  street : Option String
  city : Option String
  postal_code : Option String
  nuts_code : Option String
  country_code : Option String
deriving DecidableEq, Repr

/-- The `contracting_party` sub-dictionary as populated when an
organization-scoped identifier was found. -/
structure ContractingParty where
  name : Option String
  city : Option String
  postal_code : Option String
  nuts_code : Option String
  country_code : Option String
  website : Option String
  buyer_type : Option String
  activity_type : Option String
deriving DecidableEq, Repr

/-- The `project` sub-dictionary (always present with all keys). -/
structure Project where
  id : Option String
  name : Option String
  description : Option String
  procurement_type : Option String
  cpv_code : Option String
  location : Location
deriving DecidableEq, Repr

/-- Planned-period block of a lot. -/
structure PlannedPeriod where
  start_date : Option String
  end_date : Option String
deriving DecidableEq, Repr

/-- One element of the `lots` list. -/
structure Lot where
  id : Option String
  name : Option String
  description : Option String
  procurement_type : Option String
  cpv_code : Option String
  planned_period : PlannedPeriod
  location : Location
deriving DecidableEq, Repr

/-- One element of `financial.lot_results`.  `contract_value` is always
`none` in the source. -/
structure LotResult where
  lot_id : Option String
  contract_value : Option ℚ
  higher_tender_amount : Option ℚ
  lower_tender_amount : Option ℚ
  winner_name : Option String
deriving DecidableEq, Repr

/-- The `financial` sub-dictionary (always present with all keys). -/
structure Financial where
  total_amount : Option ℚ
  currency : Option String
  lot_results : List LotResult
deriving DecidableEq, Repr

/-- The root record returned for one document. -/
structure Notice where
  notice_id : Option String
  issue_date : Option String
  issue_time : Option String
  notice_type : Option String
  regulatory_domain : Option String
  contracting_party : Option ContractingParty
  project : Project
  lots : List Lot
  financial : Financial
deriving DecidableEq, Repr

/-- Errors that can escape `extract_single_notice`: a parse failure of the
raw bytes, or the `ValueError` of a bare `float()` call. -/
inductive ExtractErr where
  | malformedDocument
  | valueError
deriving DecidableEq, Repr

instance {ε α : Type} [DecidableEq ε] [DecidableEq α] :
    DecidableEq (Except ε α) := fun
  | .ok a, .ok b =>
      if h : a = b then .isTrue (by rw [h])
      else .isFalse (fun hh => by cases hh; exact h rfl)
  | .ok _, .error _ => .isFalse (fun hh => by cases hh)
  | .error _, .ok _ => .isFalse (fun hh => by cases hh)
  | .error e, .error f =>
      if h : e = f then .isTrue (by rw [h])
      else .isFalse (fun hh => by cases hh; exact h rfl)

/-! ### Field extraction (source lines 45-157)

Each definition below is the translation of one query or one block of
`extract_single_notice`. -/

/-- A `cbc:ID` element is an identifier of the given scheme with the given
text (used pervasively by the queries below via `stepAttr`). -/
def idNode (scheme i : String) : XNode :=
  .elem "cbc:ID" [("schemeName", scheme)] [.text i]

/-- Line 59: `txt("//cac:ContractingParty//cbc:ID[@schemeName='organization']")`,
the `cp_id` of the source. -/
def cpId (root : XNode) : Option String :=
  txtOf (underColl (fun n => tagOf n == "cac:ContractingParty")
    (fun n => tagOf n == "cbc:ID" && hasAttrEq n "schemeName" "organization")
    false root)

/-- The node set `efac:Company/cac:PartyIdentification/cbc:ID[@schemeName='organization']`
below an organization element: the identifiers compared against a sought
identifier in the predicates of lines 61 and 137-146. -/
def companyIdNodes (org : XNode) : List XNode :=
  stepAttr "cbc:ID" "schemeName" "organization"
    (step "cac:PartyIdentification" (step "efac:Company" [org]))

/-- Line 61 predicate: organizations whose nested company identifier node
set compares equal (XPath node-set equality: some member matches) to the
string `i`; in document order. -/
def orgsMatchingId (root : XNode) (i : String) : List XNode :=
  (selTag root "efac:Organization").filter
    (fun org => (companyIdNodes org).any (fun n => strVal n == i))

/-- Line 61: the `cp_base` node set (the `efac:Company` children of the
matching organizations). -/
def cpBase (root : XNode) (i : String) : List XNode :=
  step "efac:Company" (orgsMatchingId root i)

/-- The query `cac:PartyName/cbc:Name[@languageID='DEU']` below a company
node set, as used on lines 63 and 145. -/
def orgNameOf (base : List XNode) : Option String :=
  txtOf (stepAttr "cbc:Name" "languageID" "DEU" (step "cac:PartyName" base))

/-- Lines 62-71: the `contracting_party` dictionary built when `cp_id` is
present. -/
def contractingPartyOf (root : XNode) (i : String) : ContractingParty :=
  let base := cpBase root i
  let addr := step "cac:PostalAddress" base
  let cp := selTag root "cac:ContractingParty"
  { name := orgNameOf base
  , city := txtOf (step "cbc:CityName" addr)
  , postal_code := txtOf (step "cbc:PostalZone" addr)
  , nuts_code := txtOf (step "cbc:CountrySubentityCode" addr)
  , country_code := txtOf (step "cbc:IdentificationCode" (step "cac:Country" addr))
  , website := txtOf (step "cbc:WebsiteURI" base)
  , buyer_type := txtOf (step "cbc:PartyTypeCode" (step "cac:ContractingPartyType" cp))
  , activity_type := txtOf (step "cbc:ActivityTypeCode" (step "cac:ContractingActivity" cp)) }

/-- Line 74: the node set `//cac:ProcurementProject[1]` (`proj_base`).  The
XPath positional predicate binds to the child step, so this is every
procurement-project element that is the first such child of its parent. -/
def ppNodes (root : XNode) : List XNode :=
  posDesc "cac:ProcurementProject" (tagOf root == "cac:ProcurementProject") root

/-- The `location` block read below a base node set (lines 81-87 and
104-110): `cac:RealizedLocation/cac:Address/...`. -/
def locationOf (base : List XNode) : Location :=
  let addr := step "cac:Address" (step "cac:RealizedLocation" base)
  { street := txtOf (step "cbc:StreetName" addr)
  , city := txtOf (step "cbc:CityName" addr)
  , postal_code := txtOf (step "cbc:PostalZone" addr)
  , nuts_code := txtOf (step "cbc:CountrySubentityCode" addr)
  , country_code := txtOf (step "cbc:IdentificationCode" (step "cac:Country" addr)) }

/-- Lines 75-88: the `project` dictionary (always built, all keys). -/
def projectOf (root : XNode) : Project :=
  let base := ppNodes root
  { id := txtOf (step "cbc:ID" base)
  , name := txtOf (stepAttr "cbc:Name" "languageID" "DEU" base)
  , description := txtOf (stepAttr "cbc:Description" "languageID" "DEU" base)
  , procurement_type := txtOf (step "cbc:ProcurementTypeCode" base)
  , cpv_code := txtOf (step "cbc:ItemClassificationCode"
      (step "cac:MainCommodityClassification" base))
  , location := locationOf base }

/-- Line 92: the node set `//cac:ProcurementProjectLot`, in document
order. -/
def lotNodes (root : XNode) : List XNode :=
  selTag root "cac:ProcurementProjectLot"

/-- Lines 93-111: the dictionary built for one lot element (all queries are
relative to the lot; `lot_base` is the child step `cac:ProcurementProject`). -/
def lotOf (lot : XNode) : Lot :=
  let base := step "cac:ProcurementProject" [lot]
  let period := step "cac:PlannedPeriod" base
  { id := txtOf (stepAttr "cbc:ID" "schemeName" "Lot" [lot])
  , name := txtOf (stepAttr "cbc:Name" "languageID" "DEU" base)
  , description := txtOf (stepAttr "cbc:Description" "languageID" "DEU" base)
  , procurement_type := txtOf (step "cbc:ProcurementTypeCode" base)
  , cpv_code := txtOf (step "cbc:ItemClassificationCode"
      (step "cac:MainCommodityClassification" base))
  , planned_period :=
    { start_date := txtOf (step "cbc:StartDate" period)
    , end_date := txtOf (step "cbc:EndDate" period) }
  , location := locationOf base }

/-- Line 117: the node set `//efac:NoticeResult` (`fin_base`). -/
def noticeResultNodes (root : XNode) : List XNode :=
  selTag root "efac:NoticeResult"

/-- The node set `//efac:NoticeResult/cbc:TotalAmount` of lines 119-120. -/
def totalAmountNodes (root : XNode) : List XNode :=
  step "cbc:TotalAmount" (noticeResultNodes root)

/-- Line 125: the node set `//efac:NoticeResult/efac:LotResult`, in document
order. -/
def lotResultNodes (root : XNode) : List XNode :=
  step "efac:LotResult" (noticeResultNodes root)

/-- Lines 137-146, innermost predicate: lot tenders whose tender-scheme
identifier equals `tid` (`//efac:LotTender[cbc:ID[@schemeName='tender']=tid]`). -/
def lotTenderMatches (tid : String) (lt : XNode) : Bool :=
  (stepAttr "cbc:ID" "schemeName" "tender" [lt]).any (fun n => strVal n == tid)

/-- Lines 137-146: the tendering-party identifier node set referenced by the
matching lot tenders
(`//efac:LotTender[...]/efac:TenderingParty/cbc:ID[@schemeName='tendering-party']`). -/
def tpRefIdNodes (root : XNode) (tid : String) : List XNode :=
  stepAttr "cbc:ID" "schemeName" "tendering-party"
    (step "efac:TenderingParty"
      ((selTag root "efac:LotTender").filter (lotTenderMatches tid)))

/-- Lines 137-146, middle predicate: does a tendering-party element's own
identifier node set compare equal to the referenced identifier node set
(XPath node-set/node-set equality: some pair of members agree)? -/
def tpMatches (root : XNode) (tid : String) (tp : XNode) : Bool :=
  (stepAttr "cbc:ID" "schemeName" "tendering-party" [tp]).any
    (fun n => (tpRefIdNodes root tid).any (fun m => strVal m == strVal n))

/-- Lines 137-146: the organization identifier node set referenced by the
matching tendering parties
(`//efac:TenderingParty[...]/efac:Tenderer/cbc:ID[@schemeName='organization']`). -/
def tendererOrgIdNodes (root : XNode) (tid : String) : List XNode :=
  stepAttr "cbc:ID" "schemeName" "organization"
    (step "efac:Tenderer"
      ((selTag root "efac:TenderingParty").filter (tpMatches root tid)))

/-- Lines 137-146, outer predicate: does an organization's company
identifier node set compare equal to the referenced organization identifier
node set? -/
def winnerOrgMatches (root : XNode) (tid : String) (org : XNode) : Bool :=
  (companyIdNodes org).any
    (fun n => (tendererOrgIdNodes root tid).any (fun m => strVal m == strVal n))

/-- Lines 137-147: the single winner XPath — `string()` of the
`efac:Company/cac:PartyName/cbc:Name[@languageID='DEU']` nodes of every
organization matched by the three nested predicates, with the empty string
collapsed to an absent value by `or None`. -/
def winnerName (root : XNode) (tid : String) : Option String :=
  orgNameOf
    (step "efac:Company"
      ((selTag root "efac:Organization").filter (winnerOrgMatches root tid)))

/-- Lines 152-153: `float(s) if s else None` with no surrounding `try` — an
empty string degrades to an absent amount, while a non-numeric non-empty
string raises `ValueError`. -/
def amountOf (s : String) : Except ExtractErr (Option ℚ) :=
  if s = "" then .ok none
  else
    match pyFloat s with
    | some q => .ok (some q)
    | none => .error .valueError

/-- The raw `string(./cbc:HigherTenderAmount)` of a lot result (line 128). -/
def higherStr (lr : XNode) : String :=
  firstStr (step "cbc:HigherTenderAmount" [lr])

/-- The raw `string(./cbc:LowerTenderAmount)` of a lot result (line 129). -/
def lowerStr (lr : XNode) : String :=
  firstStr (step "cbc:LowerTenderAmount" [lr])

/-- The raw `string(./efac:LotTender/cbc:ID[@schemeName='tender'])` of a lot
result (line 132); the source tests this string for truthiness, so the empty
string means "no tender reference". -/
def tenderIdStr (lr : XNode) : String :=
  firstStr (stepAttr "cbc:ID" "schemeName" "tender" (step "efac:LotTender" [lr]))

/-- Lines 126-155: the dictionary appended for one lot result, or the
`ValueError` escaping from a bare `float()` call. -/
def lotResultOf (root : XNode) (lr : XNode) : Except ExtractErr LotResult := do
  let h ← amountOf (higherStr lr)
  let l ← amountOf (lowerStr lr)
  .ok
    { lot_id := txtOf (stepAttr "cbc:ID" "schemeName" "Lot" (step "efac:TenderLot" [lr]))
    , contract_value := none
    , higher_tender_amount := h
    , lower_tender_amount := l
    , winner_name :=
        if tenderIdStr lr = "" then none else winnerName root (tenderIdStr lr) }

/-- Run a fallible extraction over a list in order, stopping at the first
raised error (the loop of lines 125-155: an exception aborts the whole
call). -/
def mapExcept (f : α → Except ε β) : List α → Except ε (List β)
  | [] => .ok []
  | a :: as => do
      let b ← f a
      let bs ← mapExcept f as
      .ok (b :: bs)

/-- Lines 45-157 after a successful parse: the whole notice record, or the
error escaping from the lot-result loop. -/
def extractRoot (root : XNode) : Except ExtractErr Notice := do
  let lrs ← mapExcept (lotResultOf root) (lotResultNodes root)
  .ok
    { notice_id := txtOf (selTagAttr root "cbc:ID" "schemeName" "notice-id")
    , issue_date := txtOf (selTag root "cbc:IssueDate")
    , issue_time := txtOf (selTag root "cbc:IssueTime")
    , notice_type := txtOf (selTag root "cbc:NoticeTypeCode")
    , regulatory_domain := txtOf (selTag root "cbc:RegulatoryDomain")
    , contracting_party := (cpId root).map (contractingPartyOf root)
    , project := projectOf root
    , lots := (lotNodes root).map lotOf
    , financial :=
      { total_amount := numOf (totalAmountNodes root)
      , currency := attrFirst (totalAmountNodes root) "currencyID"
      , lot_results := lrs } }

/-- Lines 12-157: `extract_single_notice` on the outcome of parsing the raw
bytes (`etree.fromstring` is external; a failed parse is `none` and raises
`MalformedDocument`). -/
def extract_single_notice (pr : Option XNode) : Except ExtractErr Notice :=
  match pr with
  | none => .error .malformedDocument
  | some root => extractRoot root

/-! ### Batch runner (source lines 159-239)

`process_zip_to_json` iterates the entries of an already-opened archive.
Opening the archive and the per-entry file writes are external I/O; the
archive is modelled as `Except ZipErr` of an entry list (name and raw
content), the parse of one entry's content as an abstract `parse` function,
and a per-entry failure as any error of `extract_single_notice`. -/

/-- Failure to open the archive container itself (`zipfile.BadZipFile`, or
any other exception of the outer `try`). -/
inductive ZipErr where
  | badZipFile
  | otherError
deriving DecidableEq, Repr

/-- Python's `str.endswith`, used on line 183 to select the `.xml` entries;
modelled over the character lists of the strings. -/
def pyEndsWith (s post : String) : Bool :=
  post.data.isSuffixOf s.data

/-- Bool test for a successful extraction. -/
def isOkE (r : Except ExtractErr Notice) : Bool :=
  match r with
  | .ok _ => true
  | .error _ => false

/-- Lines 188-221: the per-entry loop over the `.xml` entries, accumulating
the success count, the failure count and the failed entry names in order. -/
def processEntries {β : Type} (parse : β → Option XNode) :
    List (String × β) → Nat × Nat × List String
  | [] => (0, 0, [])
  | (name, content) :: rest =>
      let r := processEntries parse rest
      if isOkE (extract_single_notice (parse content)) then
        (r.1 + 1, r.2.1, r.2.2)
      else
        (r.1, r.2.1 + 1, name :: r.2.2)

/-- Lines 180-239: `process_zip_to_json`.  A failure to open the archive
returns `(0, 0, [zip_path])` (lines 223-228); otherwise every entry whose
name ends in `.xml` is processed (line 183), each entry failure is isolated,
and the summary triple is returned. -/
def process_zip_to_json {β : Type} (zipPath : String) (parse : β → Option XNode)
    (archive : Except ZipErr (List (String × β))) : Nat × Nat × List String :=
  match archive with
  | .error _ => (0, 0, [zipPath])
  | .ok entries =>
      processEntries parse (entries.filter (fun e => pyEndsWith e.1 ".xml"))

/-! ### Sequential first-match resolver chain

Modelled from the spec: the three entity resolvers of spec section 4.3
(`findOrganizationById`, `findTenderById`, `findTenderingPartyById`, each
returning the first structural match in document order) and the winner
resolution of spec section 4.4 step 5b, which composes the three resolvers
in sequence, short-circuiting to "no winner" the moment any hop is absent.
The source implements winner resolution as one aggregate XPath join
(`winnerName` above) instead; these definitions exist only to compare the
claimed per-hop first-match semantics against that code. -/

/-- Modelled from the spec: `findOrganizationById` — first organization
whose company identifier (scheme `organization`) equals `i`. -/
def findOrganizationById (root : XNode) (i : String) : Option XNode :=
  (orgsMatchingId root i).head?

/-- Modelled from the spec: `findTenderById` — first lot-tender entity whose
identifier (scheme `tender`) equals `i`. -/
def findTenderById (root : XNode) (i : String) : Option XNode :=
  ((selTag root "efac:LotTender").filter (lotTenderMatches i)).head?

/-- Modelled from the spec: `findTenderingPartyById` — first tendering-party
entity whose identifier (scheme `tendering-party`) equals `i`. -/
def findTenderingPartyById (root : XNode) (i : String) : Option XNode :=
  ((selTag root "efac:TenderingParty").filter
    (fun tp => (stepAttr "cbc:ID" "schemeName" "tendering-party" [tp]).any
      (fun n => strVal n == i))).head?

/-- Modelled from the spec: winner resolution by composing the three
resolvers in sequence (spec section 4.4 step 5b), reading the linked
identifier of each hop from the first match and short-circuiting on any
absent hop. -/
def specChainWinner (root : XNode) (tid : String) : Option String := do
  let lt ← findTenderById root tid
  let tpid ← txtOf (stepAttr "cbc:ID" "schemeName" "tendering-party"
    (step "efac:TenderingParty" [lt]))
  let tp ← findTenderingPartyById root tpid
  let oid ← txtOf (stepAttr "cbc:ID" "schemeName" "organization"
    (step "efac:Tenderer" [tp]))
  let org ← findOrganizationById root oid
  orgNameOf (step "efac:Company" [org])

/-! ### Document families

Parametric documents exercising the extraction paths: an organization
entity, a tendering-party entity, a lot-tender entity and a lot result with
a tender reference, assembled into documents with a full winner chain, with
one hop missing, or with duplicate entities. -/

/-- An organization entity: company identifier (scheme `organization`) and
`DEU` company name. -/
def orgNode (oid nm : String) : XNode :=
  .elem "efac:Organization" []
    [ .elem "efac:Company" []
      [ .elem "cac:PartyIdentification" [] [idNode "organization" oid]
      , .elem "cac:PartyName" []
          [.elem "cbc:Name" [("languageID", "DEU")] [.text nm]] ] ]

/-- A tendering-party entity: own identifier (scheme `tendering-party`) and
a tenderer reference to an organization identifier. -/
def tpNode (tpid oid : String) : XNode :=
  .elem "efac:TenderingParty" []
    [ idNode "tendering-party" tpid
    , .elem "efac:Tenderer" [] [idNode "organization" oid] ]

/-- A lot-tender entity: own identifier (scheme `tender`) and a
tendering-party reference. -/
def ltNode (tid tpid : String) : XNode :=
  .elem "efac:LotTender" []
    [ idNode "tender" tid
    , .elem "efac:TenderingParty" [] [idNode "tendering-party" tpid] ]

/-- A lot result carrying a tender reference and nothing else. -/
def lrNode (tid : String) : XNode :=
  .elem "efac:LotResult" []
    [.elem "efac:LotTender" [] [idNode "tender" tid]]

/-- Document with a fully linked winner chain: lot result referencing tender
`tid`, lot tender `tid` referencing tendering party `tpid`, tendering party
`tpid` referencing organization `oid`, organization `oid` named `nm`. -/
def chainDoc (tid tpid oid nm : String) : XNode :=
  .elem "ContractNotice" []
    [ .elem "efac:NoticeResult" [] [lrNode tid, ltNode tid tpid, tpNode tpid oid]
    , orgNode oid nm ]

/-- The chain document with the lot-tender entity missing. -/
def chainDocNoLT (tid tpid oid nm : String) : XNode :=
  .elem "ContractNotice" []
    [ .elem "efac:NoticeResult" [] [lrNode tid, tpNode tpid oid]
    , orgNode oid nm ]

/-- The chain document with the tendering-party entity missing. -/
def chainDocNoTP (tid tpid oid nm : String) : XNode :=
  .elem "ContractNotice" []
    [ .elem "efac:NoticeResult" [] [lrNode tid, ltNode tid tpid]
    , orgNode oid nm ]

/-- The chain document with the organization entity missing. -/
def chainDocNoOrg (tid tpid oid : String) : XNode :=
  .elem "ContractNotice" []
    [.elem "efac:NoticeResult" [] [lrNode tid, ltNode tid tpid, tpNode tpid oid]]

/-- The chain document with no tender reference on the lot result. -/
def chainDocNoRef (tid tpid oid nm : String) : XNode :=
  .elem "ContractNotice" []
    [ .elem "efac:NoticeResult" []
        [.elem "efac:LotResult" [] [], ltNode tid tpid, tpNode tpid oid]
    , orgNode oid nm ]

/-- Winner-name list of an extraction outcome: the `winner_name` of every
lot result, under `Except`. -/
def winnersOf (r : Except ExtractErr Notice) : Except ExtractErr (List (Option String)) :=
  r.map (fun n => n.financial.lot_results.map (fun lr => lr.winner_name))

/-- Document in which two tendering-party entities share the identifier
`TP1`: the first references `ORG2` (named `Beta`, second organization in
document order), the second references `ORG1` (named `Alpha`, first
organization in document order). -/
def dupTpDoc : XNode :=
  .elem "ContractNotice" []
    [ .elem "efac:NoticeResult" []
        [ tpNode "TP1" "ORG2"
        , tpNode "TP1" "ORG1"
        , ltNode "T1" "TP1"
        , lrNode "T1" ]
    , orgNode "ORG1" "Alpha"
    , orgNode "ORG2" "Beta" ]

/-- Document whose contracting party references organization `oid`, with two
organization entities sharing that identifier, named `n1` (first in document
order) and `n2` (second). -/
def dupOrgDoc (oid n1 n2 : String) : XNode :=
  .elem "ContractNotice" []
    [ .elem "cac:ContractingParty" []
        [.elem "cac:Party" []
          [.elem "cac:PartyIdentification" [] [idNode "organization" oid]]]
    , orgNode oid n1
    , orgNode oid n2 ]

/-- The full winner chain with two organization entities sharing `oid`,
named `n1` (first in document order) and `n2` (second). -/
def dupOrgChainDoc (tid tpid oid n1 n2 : String) : XNode :=
  .elem "ContractNotice" []
    [ .elem "efac:NoticeResult" [] [lrNode tid, ltNode tid tpid, tpNode tpid oid]
    , orgNode oid n1
    , orgNode oid n2 ]

/-- Document whose contracting-party section carries an organization-scoped
identifier (`ORG-1`) and a buyer-type code, but which contains no
organization entity at all, so the identifier resolves to nothing. -/
def cpUnresolvedDoc : XNode :=
  .elem "ContractNotice" []
    [ .elem "cac:ContractingParty" []
        [ .elem "cac:ContractingPartyType" []
            [.elem "cbc:PartyTypeCode" [] [.text "body-pl"]]
        , .elem "cac:Party" []
            [.elem "cac:PartyIdentification" [] [idNode "organization" "ORG-1"]] ] ]

/-- Well-formed document whose only lot result carries the non-numeric
higher-tender-amount text `abc`. -/
def badAmountDoc : XNode :=
  .elem "ContractNotice" []
    [ .elem "efac:NoticeResult" []
        [.elem "efac:LotResult" []
          [.elem "cbc:HigherTenderAmount" [] [.text "abc"]]] ]

/-- Well-formed document whose total amount carries a `currencyID`
attribute that is present but empty. -/
def emptyCurrencyDoc : XNode :=
  .elem "ContractNotice" []
    [ .elem "efac:NoticeResult" []
        [.elem "cbc:TotalAmount" [("currencyID", "")] [.text "5"]] ]

/-- Document with no content at all below the root element. -/
def emptyDoc : XNode :=
  .elem "ContractNotice" [] []

/-- The all-absent location block. -/
def emptyLocation : Location :=
  { street := none, city := none, postal_code := none, nuts_code := none
  , country_code := none }

/-- The project record whose every field is absent (all keys present, all
values null). -/
def emptyProject : Project :=
  { id := none, name := none, description := none, procurement_type := none
  , cpv_code := none, location := emptyLocation }

/-- The notice extracted from `emptyDoc`. -/
def emptyNotice : Notice :=
  { notice_id := none, issue_date := none, issue_time := none
  , notice_type := none, regulatory_domain := none
  , contracting_party := none, project := emptyProject, lots := []
  , financial := { total_amount := none, currency := none, lot_results := [] } }

/-- Document containing exactly one lot (and nothing else). -/
def oneLotDoc : XNode :=
  .elem "ContractNotice" []
    [.elem "cac:ProcurementProjectLot" []
      [ idNode "Lot" "LOT-0001"
      , .elem "cac:ProcurementProject" []
          [.elem "cbc:Name" [("languageID", "DEU")] [.text "Roadworks"]] ]]

/-- Well-formed document whose total-amount text is non-numeric (`abc`);
the guarded `num` helper degrades this to an absent `total_amount`. -/
def totalBadDoc : XNode :=
  .elem "ContractNotice" []
    [.elem "efac:NoticeResult" [] [.elem "cbc:TotalAmount" [] [.text "abc"]]]

/-- A ten-entry archive over pre-parsed contents: entries 3 and 7 are
malformed (their bytes fail to parse), the rest parse to `emptyDoc`. -/
def entries10 : List (String × Option XNode) :=
  [ ("doc01.xml", some emptyDoc), ("doc02.xml", some emptyDoc)
  , ("doc03.xml", none), ("doc04.xml", some emptyDoc)
  , ("doc05.xml", some emptyDoc), ("doc06.xml", some emptyDoc)
  , ("doc07.xml", none), ("doc08.xml", some emptyDoc)
  , ("doc09.xml", some emptyDoc), ("doc10.xml", some emptyDoc) ]

/-- The notice extracted from `oneLotDoc`.  The lot's nested
procurement-project element is also the first procurement-project child of
its parent, so the positional query of line 74 picks it up as the `project`
section too. -/
def oneLotNotice : Notice :=
  { notice_id := none, issue_date := none, issue_time := none
  , notice_type := none, regulatory_domain := none
  , contracting_party := none
  , project :=
    { id := none, name := some "Roadworks", description := none
    , procurement_type := none, cpv_code := none, location := emptyLocation }
  , lots :=
    [ { id := some "LOT-0001", name := some "Roadworks", description := none
      , procurement_type := none, cpv_code := none
      , planned_period := { start_date := none, end_date := none }
      , location := emptyLocation } ]
  , financial := { total_amount := none, currency := none, lot_results := [] } }

/-- Do the higher- and lower-tender-amount texts of one lot result stay
inside the guarded fragment (empty, or accepted by `float`)?  Exactly then
the bare `float()` calls of lines 152-153 cannot raise. -/
abbrev goodLR (lr : XNode) : Prop :=
  (higherStr lr = "" ∨ (pyFloat (higherStr lr)).isSome) ∧
  (lowerStr lr = "" ∨ (pyFloat (lowerStr lr)).isSome)

/-- Every lot result of the document has guarded amount texts. -/
abbrev goodAmounts (root : XNode) : Prop :=
  ∀ lr ∈ lotResultNodes root, goodLR lr

/-! ### Helper lemmas -/

theorem amountOf_ok_or (s : String) :
    (∃ q, amountOf s = .ok q) ∨ amountOf s = .error .valueError := by
  unfold amountOf
  by_cases h : s = ""
  · exact Or.inl ⟨none, by simp [h]⟩
  · cases hp : pyFloat s with
    | none => exact Or.inr (by simp [h, hp])
    | some q => exact Or.inl ⟨some q, by simp [h, hp]⟩

theorem amountOf_ne_mal (s : String) :
    amountOf s ≠ .error .malformedDocument := by
  rcases amountOf_ok_or s with ⟨q, hq⟩ | h
  · simp [hq]
  · simp [h]

theorem amountOf_ok_of (s : String) (h : s = "" ∨ (pyFloat s).isSome) :
    ∃ q, amountOf s = .ok q := by
  rcases h with h | h
  · exact ⟨none, by simp [amountOf, h]⟩
  · obtain ⟨q, hq⟩ := Option.isSome_iff_exists.mp h
    by_cases he : s = ""
    · exact ⟨none, by simp [amountOf, he]⟩
    · exact ⟨some q, by simp [amountOf, he, hq]⟩

theorem amountOf_bad (s : String) (h1 : s ≠ "") (h2 : pyFloat s = none) :
    amountOf s = .error .valueError := by
  simp [amountOf, h1, h2]

theorem lotResultOf_ok_or (root lr : XNode) :
    (∃ r, lotResultOf root lr = .ok r) ∨ lotResultOf root lr = .error .valueError := by
  rcases amountOf_ok_or (higherStr lr) with ⟨h, hh⟩ | hh
  · rcases amountOf_ok_or (lowerStr lr) with ⟨l, hl⟩ | hl
    · refine Or.inl ?_
      simp only [lotResultOf, Bind.bind, Except.bind, hh, hl]
      exact ⟨_, rfl⟩
    · exact Or.inr (by simp only [lotResultOf, Bind.bind, Except.bind, hh, hl])
  · exact Or.inr (by simp only [lotResultOf, Bind.bind, Except.bind, hh])

theorem lotResultOf_ne_mal (root lr : XNode) :
    lotResultOf root lr ≠ .error .malformedDocument := by
  rcases lotResultOf_ok_or root lr with ⟨r, hr⟩ | h
  · simp [hr]
  · simp [h]

theorem lotResultOf_ok_of (root lr : XNode) (h : goodLR lr) :
    ∃ r, lotResultOf root lr = .ok r := by
  obtain ⟨hh, hl⟩ := h
  obtain ⟨qh, hqh⟩ := amountOf_ok_of _ hh
  obtain ⟨ql, hql⟩ := amountOf_ok_of _ hl
  simp only [lotResultOf, Bind.bind, Except.bind, hqh, hql]
  exact ⟨_, rfl⟩

theorem lotResultOf_err_of (root lr : XNode)
    (h : (higherStr lr ≠ "" ∧ pyFloat (higherStr lr) = none) ∨
         (lowerStr lr ≠ "" ∧ pyFloat (lowerStr lr) = none)) :
    lotResultOf root lr = .error .valueError := by
  rcases amountOf_ok_or (higherStr lr) with ⟨qh, hqh⟩ | hqh
  · rcases h with ⟨h1, h2⟩ | ⟨h1, h2⟩
    · rw [amountOf_bad _ h1 h2] at hqh; cases hqh
    · simp only [lotResultOf, Bind.bind, Except.bind, hqh, amountOf_bad _ h1 h2]
  · simp only [lotResultOf, Bind.bind, Except.bind, hqh]

theorem mapExcept_ok_all {α β ε : Type} (f : α → Except ε β) (l : List α)
    (h : ∀ a ∈ l, ∃ b, f a = .ok b) : ∃ bs, mapExcept f l = .ok bs := by
  induction l with
  | nil => exact ⟨[], rfl⟩
  | cons a as ih =>
      obtain ⟨b, hb⟩ := h a (List.mem_cons_self a as)
      obtain ⟨bs, hbs⟩ := ih (fun x hx => h x (List.mem_cons_of_mem a hx))
      refine ⟨b :: bs, ?_⟩
      simp only [mapExcept, Bind.bind, Except.bind, hb, hbs]

theorem mapExcept_ne_error {α β ε : Type} (f : α → Except ε β) (l : List α)
    (e : ε) (h : ∀ a ∈ l, f a ≠ .error e) : mapExcept f l ≠ .error e := by
  induction l with
  | nil => simp [mapExcept]
  | cons a as ih =>
      cases hfa : f a with
      | error e' =>
          have : e' ≠ e := fun hee => h a (List.mem_cons_self a as) (by rw [hfa, hee])
          simp [mapExcept, hfa, Bind.bind, Except.bind, this]
      | ok b =>
          have ih' := ih (fun x hx => h x (List.mem_cons_of_mem a hx))
          cases hbs : mapExcept f as with
          | error e' =>
              have : e' ≠ e := fun hee => ih' (by rw [hbs, hee])
              simp [mapExcept, hfa, hbs, Bind.bind, Except.bind, this]
          | ok bs => simp [mapExcept, hfa, hbs, Bind.bind, Except.bind]

theorem mapExcept_error_of_mem {α β ε : Type} (f : α → Except ε β) (l : List α)
    (e : ε) (hall : ∀ a ∈ l, (∃ b, f a = .ok b) ∨ f a = .error e)
    (hex : ∃ a ∈ l, f a = .error e) : mapExcept f l = .error e := by
  induction l with
  | nil => obtain ⟨a, ha, _⟩ := hex; cases ha
  | cons a as ih =>
      rcases hall a (List.mem_cons_self a as) with ⟨b, hb⟩ | hb
      · obtain ⟨x, hx, hxe⟩ := hex
        rcases List.mem_cons.mp hx with rfl | hx'
        · rw [hb] at hxe; cases hxe
        · have := ih (fun y hy => hall y (List.mem_cons_of_mem a hy)) ⟨x, hx', hxe⟩
          simp [mapExcept, hb, this, Bind.bind, Except.bind]
      · simp [mapExcept, hb, Bind.bind, Except.bind]

theorem mapExcept_ok_get {α β ε : Type} (f : α → Except ε β) (l : List α)
    (bs : List β) (h : mapExcept f l = .ok bs) :
    bs.length = l.length ∧
      ∀ i : Nat, (bs.get? i).map Except.ok = (l.get? i).map f := by
  induction l generalizing bs with
  | nil =>
      obtain rfl : ([] : List β) = bs := by
        simpa [mapExcept] using h
      exact ⟨rfl, fun i => by cases i <;> rfl⟩
  | cons a as ih =>
      cases hfa : f a with
      | error e => rw [mapExcept, hfa] at h; cases h
      | ok b =>
          cases hbs : mapExcept f as with
          | error e =>
              rw [mapExcept, hfa, hbs] at h
              cases h
          | ok bs' =>
              rw [mapExcept, hfa, hbs] at h
              obtain rfl : b :: bs' = bs := by
                simpa [Bind.bind, Except.bind] using h
              obtain ⟨hlen, hget⟩ := ih bs' hbs
              refine ⟨by simp [hlen], fun i => ?_⟩
              cases i with
              | zero => simp [hfa]
              | succ j => simpa using hget j

theorem extractRoot_ok_proj {root : XNode} {n : Notice}
    (h : extractRoot root = .ok n) :
    n.notice_id = txtOf (selTagAttr root "cbc:ID" "schemeName" "notice-id") ∧
    n.contracting_party = (cpId root).map (contractingPartyOf root) ∧
    n.project = projectOf root ∧
    n.lots = (lotNodes root).map lotOf ∧
    n.financial.total_amount = numOf (totalAmountNodes root) ∧
    n.financial.currency = attrFirst (totalAmountNodes root) "currencyID" ∧
    mapExcept (lotResultOf root) (lotResultNodes root) = .ok n.financial.lot_results := by
  unfold extractRoot at h
  cases h' : mapExcept (lotResultOf root) (lotResultNodes root) with
  | error e => rw [h'] at h; simp [Bind.bind, Except.bind] at h
  | ok lrs =>
      rw [h'] at h
      simp only [Bind.bind, Except.bind, Except.ok.injEq] at h
      subst h
      exact ⟨rfl, rfl, rfl, rfl, rfl, rfl, rfl⟩

theorem extractRoot_ne_mal (root : XNode) :
    extractRoot root ≠ .error .malformedDocument := by
  unfold extractRoot
  cases h' : mapExcept (lotResultOf root) (lotResultNodes root) with
  | error e =>
      have : e ≠ .malformedDocument := fun he =>
        mapExcept_ne_error _ _ _ (fun lr _ => lotResultOf_ne_mal root lr) (by rw [h', he])
      simp [h', Bind.bind, Except.bind, this]
  | ok lrs => simp [h', Bind.bind, Except.bind]

mutual

theorem posDesc_tag_mem (t : String) (qual : Bool) (n : XNode)
    (hq : qual = true → (tagOf n == t) = true) :
    ∀ m ∈ posDesc t qual n, (tagOf m == t) = true ∧ m ∈ descAll n := by
  cases n with
  | text s => intro m hm; simp [posDesc] at hm
  | elem tg a cs =>
      intro m hm
      rw [posDesc] at hm
      rcases List.mem_append.mp hm with hm1 | hm2
      · cases qual with
        | false => simp at hm1
        | true =>
            simp only [if_true, List.mem_singleton] at hm1
            subst hm1
            exact ⟨hq rfl, by rw [descAll]; exact List.mem_cons_self _ _⟩
      · obtain ⟨htag, hmem⟩ := posDescL_tag_mem t false cs m hm2
        exact ⟨htag, by rw [descAll]; exact List.mem_cons_of_mem _ hmem⟩

theorem posDescL_tag_mem (t : String) (seen : Bool) (cs : List XNode) :
    ∀ m ∈ posDescL t seen cs, (tagOf m == t) = true ∧ m ∈ descAllL cs := by
  cases cs with
  | nil => intro m hm; simp [posDescL] at hm
  | cons c rest =>
      intro m hm
      rw [posDescL] at hm
      rcases List.mem_append.mp hm with hm1 | hm2
      · obtain ⟨htag, hmem⟩ :=
          posDesc_tag_mem t (tagOf c == t && !seen) c
            (fun hh => (Bool.and_eq_true _ _).mp hh |>.1) m hm1
        exact ⟨htag, by rw [descAllL]; exact List.mem_append.mpr (Or.inl hmem)⟩
      · obtain ⟨htag, hmem⟩ := posDescL_tag_mem t (seen || (tagOf c == t)) rest m hm2
        exact ⟨htag, by rw [descAllL]; exact List.mem_append.mpr (Or.inr hmem)⟩

end

theorem ppNodes_nil {root : XNode}
    (h : selTag root "cac:ProcurementProject" = []) : ppNodes root = [] := by
  rw [List.eq_nil_iff_forall_not_mem]
  intro m hm
  obtain ⟨htag, hmem⟩ :=
    posDesc_tag_mem "cac:ProcurementProject" _ root (fun hh => hh) m hm
  have : m ∈ selTag root "cac:ProcurementProject" :=
    List.mem_filter.mpr ⟨hmem, htag⟩
  rw [h] at this
  cases this

theorem processEntries_spec {β : Type} (parse : β → Option XNode)
    (l : List (String × β)) :
    processEntries parse l =
      ((l.filter (fun e => isOkE (extract_single_notice (parse e.2)))).length,
       (l.filter (fun e => !(isOkE (extract_single_notice (parse e.2))))).length,
       (l.filter (fun e => !(isOkE (extract_single_notice (parse e.2))))).map
         (fun e => e.1)) := by
  induction l with
  | nil => rfl
  | cons a as ih =>
      obtain ⟨name, content⟩ := a
      cases h : isOkE (extract_single_notice (parse content)) with
      | true => simp [processEntries, h, ih]
      | false => simp [processEntries, h, ih]


/-! ### Claims -/

/-- Claim C1: for every document of the chain family whose lot result carries
a (non-empty) tender-identifier reference and whose chain tender → tendering
party → organization is fully present and consistently linked with a
non-empty company name, the extractor sets the lot result's `winner_name` to
the linked organization's company name; for the variants with any hop of the
chain missing (no lot-tender entity, no tendering-party entity, no
organization entity, or no tender reference at all), `winner_name` is absent
and the extraction still returns a record — no error propagates. -/
theorem claim_C1 (tid tpid oid nm : String) (ht : tid ≠ "") (hn : nm ≠ "") :
    winnersOf (extractRoot (chainDoc tid tpid oid nm)) = .ok [some nm] ∧
    winnersOf (extractRoot (chainDocNoLT tid tpid oid nm)) = .ok [none] ∧
    winnersOf (extractRoot (chainDocNoTP tid tpid oid nm)) = .ok [none] ∧
    winnersOf (extractRoot (chainDocNoOrg tid tpid oid)) = .ok [none] ∧
    winnersOf (extractRoot (chainDocNoRef tid tpid oid nm)) = .ok [none] := by
  refine ⟨?_, ?_, ?_, ?_, ?_⟩ <;>
    simp [chainDoc, chainDocNoLT, chainDocNoTP, chainDocNoOrg, chainDocNoRef,
      winnersOf, extractRoot, lrNode, ltNode, tpNode, orgNode, idNode,
    mapExcept, lotResultOf, lotResultNodes, noticeResultNodes, totalAmountNodes,
    selTag, selTagAttr, descAll, descAllL, tagOf, step, stepAttr, childTag,
    childrenOf, hasAttrEq, attrOf, firstStr, strVal, strValL, txtOf, amountOf,
    higherStr, lowerStr, tenderIdStr, winnerName, orgNameOf, winnerOrgMatches,
    companyIdNodes, tendererOrgIdNodes, tpMatches, tpRefIdNodes, lotTenderMatches,
    cpId, underColl, underCollL, contractingPartyOf, cpBase, orgsMatchingId,
    projectOf, ppNodes, posDesc, posDescL, locationOf, lotNodes, lotOf, numOf,
    attrFirst, attrVals, Except.map, Except.bind, bind, Except.instMonad, ht, hn]

/-- Witness for C1 at the spec's own end-to-end scenario. -/
theorem claim_C1_witness :
    winnersOf (extractRoot (chainDoc "TEN-1" "TP-1" "ORG-9" "Acme GmbH")) =
      .ok [some "Acme GmbH"] :=
  (claim_C1 "TEN-1" "TP-1" "ORG-9" "Acme GmbH" (by decide) (by decide)).1

/-- Counterexample to C2: `badAmountDoc` parses (it is a well-formed tree),
yet extraction raises the `ValueError` of the unguarded `float("abc")` call
of line 152 instead of returning a Notice — so the extractor does not raise
only on unparseable bytes. -/
theorem claim_C2_cex :
    extract_single_notice (some badAmountDoc) = .error .valueError := by decide

/-- Claim C2 (amended): extraction fails with `MalformedDocument` exactly on
bytes that fail to parse; for every parsed document all field-extraction
irregularities degrade to absent fields and a full record is returned —
except that a lot result whose higher/lower tender-amount text is non-empty
and non-numeric raises the `ValueError` of the bare `float()` calls of lines
152-153. -/
theorem claim_C2 (pr : Option XNode) :
    (extract_single_notice pr = .error .malformedDocument ↔ pr = none) ∧
    (∀ root, pr = some root → goodAmounts root →
      ∃ n, extract_single_notice pr = .ok n) := by
  constructor
  · constructor
    · intro h
      cases pr with
      | none => rfl
      | some root =>
          simp only [extract_single_notice] at h
          exact absurd h (extractRoot_ne_mal root)
    · intro h; subst h; rfl
  · rintro root rfl hg
    obtain ⟨lrs, hlrs⟩ :=
      mapExcept_ok_all (lotResultOf root) (lotResultNodes root)
        (fun lr hlr => lotResultOf_ok_of root lr (hg lr hlr))
    simp only [extract_single_notice, extractRoot, Bind.bind, Except.bind, hlrs]
    exact ⟨_, rfl⟩

/-- Witness for C2 at a concrete parsed document with guarded amounts. -/
theorem claim_C2_witness : ∃ n, extract_single_notice (some emptyDoc) = .ok n :=
  (claim_C2 (some emptyDoc)).2 emptyDoc rfl (by decide)

/-- Counterexample to C3: a non-numeric higher-tender-amount text makes the
record builder raise (the bare `float()` of line 152), so a numeric parse
failure does not always degrade to an absent field. -/
theorem claim_C3_cex : extractRoot badAmountDoc = .error .valueError := by decide

/-- Claim C3 (amended): `total_amount` (read through the guarded `num`
helper of lines 37-43) is absent — never zero, never an exception — when its
source text is missing/empty or non-numeric; the higher/lower tender amounts
of lot results degrade to absent only on empty text, while non-empty
non-numeric text raises a `ValueError` that escapes the record builder. -/
theorem claim_C3 (root : XNode) :
    (∀ n, extractRoot root = .ok n →
      (txtOf (totalAmountNodes root) = none →
        n.financial.total_amount = none) ∧
      (∀ s, txtOf (totalAmountNodes root) = some s → pyFloat s = none →
        n.financial.total_amount = none)) ∧
    ((∃ lr ∈ lotResultNodes root,
        (higherStr lr ≠ "" ∧ pyFloat (higherStr lr) = none) ∨
        (lowerStr lr ≠ "" ∧ pyFloat (lowerStr lr) = none)) →
      extractRoot root = .error .valueError) := by
  constructor
  · intro n hn
    have htot := (extractRoot_ok_proj hn).2.2.2.2.1
    constructor
    · intro h0; rw [htot]; simp [numOf, h0]
    · intro s hs hps; rw [htot]; simp [numOf, hs, hps]
  · rintro ⟨lr, hmem, hbad⟩
    have herr := lotResultOf_err_of root lr hbad
    have hme : mapExcept (lotResultOf root) (lotResultNodes root) =
        .error .valueError :=
      mapExcept_error_of_mem _ _ _ (fun a _ => lotResultOf_ok_or root a)
        ⟨lr, hmem, herr⟩
    simp only [extractRoot, Bind.bind, Except.bind, hme]

/-- Witness for C3: a non-numeric total-amount text degrades to an absent
`total_amount` (no exception, no zero). -/
theorem claim_C3_witness : emptyNotice.financial.total_amount = none :=
  ((claim_C3 totalBadDoc).1 emptyNotice (by decide)).2 "abc" (by decide) (by decide)

/-- Counterexample to C4: in `dupTpDoc` two tendering-party entities share
identifier `TP1`.  Per-hop first-match resolution (the spec-modelled
sequential chain) yields the first tendering party's organization (`Beta`),
but the code's aggregate XPath join yields `Alpha`, the first matching
organization name in document order, which belongs to the *second* matching
tendering party. -/
theorem claim_C4_cex :
    winnersOf (extractRoot dupTpDoc) = .ok [some "Alpha"] ∧
    specChainWinner dupTpDoc "T1" = some "Beta" :=
  ⟨by decide, by decide⟩

/-- Claim C4 (amended): organization lookups select the first matching
entity in document order — the contracting-party resolution and the final
organization hop of winner resolution both project the first organization
carrying the sought identifier, for any duplicate set.  The tender and
tendering-party hops of winner resolution, however, aggregate all matching
entities instead of selecting a first match (see the counterexample). -/
theorem claim_C4 (oid n1 n2 tid tpid : String) (ho : oid ≠ "") (h1 : n1 ≠ "")
    (ht : tid ≠ "") :
    (extractRoot (dupOrgDoc oid n1 n2)).map
        (fun n => n.contracting_party.map (fun c => c.name)) =
      .ok (some (some n1)) ∧
    winnersOf (extractRoot (dupOrgChainDoc tid tpid oid n1 n2)) = .ok [some n1] := by
  constructor
  · simp [dupOrgDoc, winnersOf, extractRoot, lrNode, ltNode, tpNode, orgNode, idNode,
    mapExcept, lotResultOf, lotResultNodes, noticeResultNodes, totalAmountNodes,
    selTag, selTagAttr, descAll, descAllL, tagOf, step, stepAttr, childTag,
    childrenOf, hasAttrEq, attrOf, firstStr, strVal, strValL, txtOf, amountOf,
    higherStr, lowerStr, tenderIdStr, winnerName, orgNameOf, winnerOrgMatches,
    companyIdNodes, tendererOrgIdNodes, tpMatches, tpRefIdNodes, lotTenderMatches,
    cpId, underColl, underCollL, contractingPartyOf, cpBase, orgsMatchingId,
    projectOf, ppNodes, posDesc, posDescL, locationOf, lotNodes, lotOf, numOf,
    attrFirst, attrVals, Except.map, Except.bind, bind, Except.instMonad, ho, h1]
  · simp [dupOrgChainDoc, winnersOf, extractRoot, lrNode, ltNode, tpNode, orgNode, idNode,
    mapExcept, lotResultOf, lotResultNodes, noticeResultNodes, totalAmountNodes,
    selTag, selTagAttr, descAll, descAllL, tagOf, step, stepAttr, childTag,
    childrenOf, hasAttrEq, attrOf, firstStr, strVal, strValL, txtOf, amountOf,
    higherStr, lowerStr, tenderIdStr, winnerName, orgNameOf, winnerOrgMatches,
    companyIdNodes, tendererOrgIdNodes, tpMatches, tpRefIdNodes, lotTenderMatches,
    cpId, underColl, underCollL, contractingPartyOf, cpBase, orgsMatchingId,
    projectOf, ppNodes, posDesc, posDescL, locationOf, lotNodes, lotOf, numOf,
    attrFirst, attrVals, Except.map, Except.bind, bind, Except.instMonad, ht, h1]

/-- Witness for C4 at concrete identifiers. -/
theorem claim_C4_witness :
    winnersOf (extractRoot (dupOrgChainDoc "T1" "TP-1" "ORG-1" "Alpha" "Beta")) =
      .ok [some "Alpha"] :=
  (claim_C4 "ORG-1" "Alpha" "Beta" "T1" "TP-1" (by decide) (by decide) (by decide)).2

/-- Counterexample to C5: in `cpUnresolvedDoc` the contracting-party
identifier `ORG-1` resolves to no organization, yet the section is *not*
left empty — the code populates the dictionary with all keys (absent values
from the failed lookup, and `buyer_type` read directly from the
contracting-party section). -/
theorem claim_C5_cex :
    (extractRoot cpUnresolvedDoc).map Notice.contracting_party =
      .ok (some { name := none, city := none, postal_code := none
                , nuts_code := none, country_code := none, website := none
                , buyer_type := some "body-pl", activity_type := none }) ∧
    (extractRoot cpUnresolvedDoc).map Notice.contracting_party ≠ .ok none :=
  ⟨by decide, by decide⟩

/-- Claim C5 (amended): the `contracting_party` section is empty exactly
when the organization-scoped identifier is absent; whenever the identifier
is present — resolved or not — the section is populated with the projection
of the (possibly empty) lookup result. -/
theorem claim_C5 (root : XNode) (n : Notice) (h : extractRoot root = .ok n) :
    (n.contracting_party = none ↔ cpId root = none) ∧
    (∀ s, cpId root = some s →
      n.contracting_party = some (contractingPartyOf root s)) := by
  have hcp := (extractRoot_ok_proj h).2.1
  constructor
  · rw [hcp]
    cases hc : cpId root with
    | none => simp
    | some s => simp
  · intro s hs
    rw [hcp, hs]
    rfl

/-- Witness for C5 at a concrete document with no identifier. -/
theorem claim_C5_witness :
    emptyNotice.contracting_party = none ↔ cpId emptyDoc = none :=
  (claim_C5 emptyDoc emptyNotice (by decide)).1

/-- Counterexample to C6: the `currency` output field equals the empty
string when the `currencyID` attribute is present with an empty value — the
`attr` helper (`result[0] if result else None`) does not collapse an empty
attribute value to an absent field. -/
theorem claim_C6_cex :
    (extractRoot emptyCurrencyDoc).map (fun n => n.financial.currency) =
      .ok (some "") := by decide

/-- Claim C6 (amended): every text-valued field (read through the `txt`
helper) is never the empty string and is absent whenever its source node is
missing or has empty string-value; an attribute-valued field is absent when
the attribute is missing (but, per the counterexample, can be the empty
string when the attribute is present and empty). -/
theorem claim_C6 (ns : List XNode) :
    txtOf ns ≠ some "" ∧
    (firstStr ns = "" → txtOf ns = none) ∧
    (∀ a, attrVals ns a = [] → attrFirst ns a = none) := by
  refine ⟨?_, ?_, ?_⟩
  · intro hcontra
    unfold txtOf at hcontra
    by_cases h : firstStr ns = ""
    · rw [if_pos h] at hcontra; cases hcontra
    · rw [if_neg h] at hcontra
      exact h (Option.some.inj hcontra)
  · intro h; simp [txtOf, h]
  · intro a h; simp [attrFirst, h]

/-- Witness for C6 at the empty node set. -/
theorem claim_C6_witness : txtOf [] = none :=
  (claim_C6 []).2.1 rfl

/-- Claim C7: for every archive that opens, the batch runner processes
exactly the entries ending in `.xml`, isolates per-entry failures, and
returns the number of successful entries, the number of failed entries and
the list of exactly the failed entries' names in order; in particular a
10-entry archive with 2 malformed entries yields `(8, 2, [those two names])`. -/
theorem claim_C7 {β : Type} (parse : β → Option XNode) (path : String)
    (entries : List (String × β)) :
    process_zip_to_json path parse (.ok entries) =
      (((entries.filter (fun e => pyEndsWith e.1 ".xml")).filter
          (fun e => isOkE (extract_single_notice (parse e.2)))).length,
       ((entries.filter (fun e => pyEndsWith e.1 ".xml")).filter
          (fun e => !(isOkE (extract_single_notice (parse e.2))))).length,
       ((entries.filter (fun e => pyEndsWith e.1 ".xml")).filter
          (fun e => !(isOkE (extract_single_notice (parse e.2))))).map
         (fun e => e.1)) ∧
    process_zip_to_json "archive.zip" (fun pr => pr) (.ok entries10) =
      (8, 2, ["doc03.xml", "doc07.xml"]) := by
  constructor
  · simp only [process_zip_to_json]
    exact processEntries_spec parse (entries.filter (fun e => pyEndsWith e.1 ".xml"))
  · decide

/-- Claim C8: the `lots` and `lot_results` sequences of a returned notice
contain exactly one element per source element, at the same position, in
source document order — no sorting, no deduplication. -/
theorem claim_C8 (root : XNode) (n : Notice) (h : extractRoot root = .ok n) :
    n.lots.length = (lotNodes root).length ∧
    (∀ i : Nat, n.lots.get? i = ((lotNodes root).get? i).map lotOf) ∧
    n.financial.lot_results.length = (lotResultNodes root).length ∧
    (∀ i : Nat, (n.financial.lot_results.get? i).map Except.ok =
      ((lotResultNodes root).get? i).map (lotResultOf root)) := by
  have hproj := extractRoot_ok_proj h
  have hlots : n.lots = (lotNodes root).map lotOf := hproj.2.2.2.1
  obtain ⟨hlen, hget⟩ := mapExcept_ok_get _ _ _ hproj.2.2.2.2.2.2
  refine ⟨by rw [hlots]; simp, fun i => ?_, hlen, hget⟩
  rw [hlots]
  simp [List.getElem?_map]

/-- Witness for C8 at a one-lot document. -/
theorem claim_C8_witness :
    oneLotNotice.lots.get? 0 = ((lotNodes oneLotDoc).get? 0).map lotOf :=
  (claim_C8 oneLotDoc oneLotNotice (by decide)).2.1 0

/-- Claim C9: when the archive container cannot be opened, the batch runner
returns success count 0, failure count 0 (the archive-level failure is not
reflected in the count), and a failure list whose single element is the
archive path itself. -/
theorem claim_C9 {β : Type} (path : String) (parse : β → Option XNode)
    (e : ZipErr) :
    process_zip_to_json path parse (.error e) = (0, 0, [path]) := rfl

/-- Claim C10: the returned notice always carries a fully-keyed project
record (it equals the record built by the project section of the code), and
when the document has no procurement-project subtree at all the record is
present with every field absent. -/
theorem claim_C10 (root : XNode) (n : Notice) (h : extractRoot root = .ok n) :
    n.project = projectOf root ∧
    (selTag root "cac:ProcurementProject" = [] → n.project = emptyProject) := by
  have hp := (extractRoot_ok_proj h).2.2.1
  refine ⟨hp, fun hnil => ?_⟩
  rw [hp]
  have hpn : ppNodes root = [] := ppNodes_nil hnil
  simp [projectOf, locationOf, step, stepAttr, txtOf, firstStr, hpn,
    emptyProject, emptyLocation]

/-- Witness for C10 at a document with no procurement-project subtree. -/
theorem claim_C10_witness :
    (extractRoot emptyDoc).map Notice.project = .ok emptyProject := by
  have h : extractRoot emptyDoc = .ok emptyNotice := by decide
  have h2 := (claim_C10 emptyDoc emptyNotice h).2 rfl
  simp only [h, Except.map]
  exact congrArg Except.ok h2

end EForms
